import Mathlib

/-!
Shallow embedding of `src/components/SettingsPage.tsx` (multi-model-chat).

JavaScript strings are modelled as `List Char`.  The nondeterministic
identifier generation `Math.random().toString(36).substring(2, 15)` is
modelled by an explicit generator `genId : Nat → JStr` supplying the id of
the k-th copy created in one call; freshness/injectivity of the generator
becomes an explicit hypothesis where a claim needs it.

Handlers are embedded as pure functions from (service state, UI state) to
(service state, UI state, trace of service calls), with each React
`setXxx(v)` becoming a field update and each `SettingsService.xxx(...)`
call appended to the trace.
-/

/-- JavaScript string, modelled as a list of characters. -/
abbrev JStr := List Char

/-- The characters removed by JavaScript `String.prototype.trim` (the common
whitespace characters; exotic Unicode space separators are not used by any
input considered here). -/
def isWS (c : Char) : Bool :=
  c = ' ' || c = '\t' || c = '\n' || c = '\r' || c = '\x0B' || c = '\x0C' ||
    c = '\u00A0' || c = '\uFEFF'

/-- JavaScript `s.trim()`: drop whitespace from the front, then from the back. -/
def trim (s : JStr) : JStr :=
  List.rdropWhile isWS (s.dropWhile isWS)

/-- Accumulator for `splitOnComma`; mirrors JavaScript `s.split(',')`, which
yields one piece per comma-separated segment (`"".split(',') = [""]`). -/
def splitOnCommaAux : JStr → JStr → List JStr
  | [], acc => [acc.reverse]
  | c :: rest, acc =>
      if c = ',' then acc.reverse :: splitOnCommaAux rest []
      else splitOnCommaAux rest (c :: acc)

/-- JavaScript `s.split(',')`. -/
def splitOnComma (s : JStr) : List JStr :=
  splitOnCommaAux s []

/-- `LocalModelConfig` (from `../types`), with the fields this component
reads: `id`, `name`, `modelType`, `endpoint`, `description`, `isEnabled`. -/
structure LocalModelConfig where
  id : JStr
  name : JStr
  modelType : JStr
  endpoint : JStr
  description : JStr
  isEnabled : Bool
deriving DecidableEq

/-- The settings snapshot (`AppSettings`).  The floating-point `temperature`
preference is outside the integer embedding and not used by any claim, so it
is omitted. -/
structure AppSettings where
  maxTokens : Int
  localModelTimeout : Int
  autoSave : Bool
  theme : JStr
  openRouterApiKey : JStr
  localModels : List LocalModelConfig
deriving DecidableEq

/-- Line 59 of the source: split by comma, trim whitespace, and filter out
empty entries. -/
def parsedNames (s : JStr) : List JStr :=
  ((splitOnComma s).map trim).filter (fun n => decide (0 < n.length))

/-- `names.map(...)` where the body generates a fresh id per element: the
k-th element receives `genId k`. -/
def mapWithIndex (f : Nat → JStr → LocalModelConfig) : Nat → List JStr → List LocalModelConfig
  | _, [] => []
  | i, n :: ns => f i n :: mapWithIndex f (i + 1) ns

/-- `parseCommaSeparatedModelNames` (source lines 57-72): one name → the
original config unchanged; otherwise one copy per remaining name, each with a
freshly generated id and the parsed name. -/
def parseCommaSeparatedModelNames (genId : Nat → JStr) (model : LocalModelConfig) :
    List LocalModelConfig :=
  if (parsedNames model.name).length = 1 then [model]
  else mapWithIndex (fun i n => { model with id := genId i, name := n }) 0
    (parsedNames model.name)

/-- Calls made to the external `SettingsService` by the handlers modelled
here.  `addLocalModel` takes an `Option` because the source can reach
`SettingsService.addLocalModel(modelsToSave[0])` with `modelsToSave` empty,
passing JavaScript `undefined` (modelled as `none`). -/
inductive ServiceCall where
  | addLocalModel (c : Option LocalModelConfig)
  | addLocalModels (cs : List LocalModelConfig)
  | updateLocalModel (id : JStr) (c : LocalModelConfig)
deriving DecidableEq

/-- Modelled from the spec: the `SettingsService` itself
(`../services/settings`) is not part of the given sources; per the external
interface section, `updateLocalModel(id, config)` updates the stored config
in place by identifier. -/
def updateLocalModelSvc (mid : JStr) (c : LocalModelConfig) (s : AppSettings) : AppSettings :=
  { s with localModels := s.localModels.map (fun m => if m.id = mid then c else m) }

/-- Modelled from the spec: `addLocalModel(config)` appends one config to the
stored collection.  Called with `none` (JavaScript `undefined`) its behaviour
is unspecified; it is modelled as leaving the store unchanged, and no claim
relies on that branch's effect. -/
def addLocalModelSvc (c : Option LocalModelConfig) (s : AppSettings) : AppSettings :=
  match c with
  | some c => { s with localModels := s.localModels ++ [c] }
  | none => s

/-- Modelled from the spec: `addLocalModels(configs[])` appends the batch to
the stored collection. -/
def addLocalModelsSvc (cs : List LocalModelConfig) (s : AppSettings) : AppSettings :=
  { s with localModels := s.localModels ++ cs }

/-- The component state touched by the modelled handlers (`useState` hooks of
the source). -/
structure UIState where
  settings : AppSettings
  showLocalModelForm : Bool
  editingModel : Option LocalModelConfig
  importError : JStr
  showBulkConfirm : Bool
  modelsToCreate : List LocalModelConfig
  successMessage : JStr
deriving DecidableEq

/-- `handleSaveLocalModel` (source lines 74-96).  Editing: update in place by
id, refresh snapshot, close form.  Creating: parse; more than one config →
stage and open the confirmation dialog; otherwise call `addLocalModel` with
element 0 of the parsed list (which is `undefined`/`none` when the list is
empty), refresh snapshot, close form. -/
def handleSaveLocalModel (genId : Nat → JStr) (model : LocalModelConfig)
    (svc : AppSettings) (ui : UIState) : AppSettings × UIState × List ServiceCall :=
  match ui.editingModel with
  | some _ =>
      let svc2 := updateLocalModelSvc model.id model svc
      (svc2,
       { ui with settings := svc2, showLocalModelForm := false, editingModel := none },
       [ServiceCall.updateLocalModel model.id model])
  | none =>
      let modelsToSave := parseCommaSeparatedModelNames genId model
      if 1 < modelsToSave.length then
        (svc, { ui with modelsToCreate := modelsToSave, showBulkConfirm := true }, [])
      else
        let svc2 := addLocalModelSvc modelsToSave[0]? svc
        (svc2,
         { ui with settings := svc2, showLocalModelForm := false, editingModel := none },
         [ServiceCall.addLocalModel modelsToSave[0]?])

/-- `handleConfirmBulkCreation` (source lines 98-110): batch-add the staged
list, refresh snapshot, close form, hide the dialog and set the success
message.  Note that `modelsToCreate` is not reset here. -/
def handleConfirmBulkCreation (svc : AppSettings) (ui : UIState) :
    AppSettings × UIState × List ServiceCall :=
  let svc2 := addLocalModelsSvc ui.modelsToCreate svc
  (svc2,
   { ui with settings := svc2, showLocalModelForm := false, editingModel := none,
             showBulkConfirm := false,
             successMessage :=
               "Successfully created ".toList ++
                 (Nat.repr ui.modelsToCreate.length).toList ++ " models: ".toList ++
                 List.intercalate (", ".toList) (ui.modelsToCreate.map (fun m => m.name)) },
   [ServiceCall.addLocalModels ui.modelsToCreate])

/-- `handleCancelBulkCreation` (source lines 112-115): hide the dialog and
clear the staged list; nothing else changes and no service call is made. -/
def handleCancelBulkCreation (svc : AppSettings) (ui : UIState) :
    AppSettings × UIState × List ServiceCall :=
  (svc, { ui with showBulkConfirm := false, modelsToCreate := [] }, [])

/-- The `reader.onload` body of `handleImportSettings` (source lines 145-154).
The external `importSettings` (not in the given sources) may fail; it is
passed in as `importOp`, returning `none` on failure (a thrown error) and the
post-import service state on success. -/
def importAttempt (importOp : JStr → AppSettings → Option AppSettings)
    (content : JStr) (svc : AppSettings) (ui : UIState) : AppSettings × UIState :=
  match importOp content svc with
  | some svc2 => (svc2, { ui with settings := svc2, importError := [] })
  | none => (svc, { ui with importError := "Invalid settings file format".toList })

/-- Maximal leading run of decimal digits, as a number; `none` when there is
no leading digit (JavaScript `NaN`). -/
def parseDigits (s : JStr) : Option Nat :=
  let ds := s.takeWhile (fun c => decide ('0' ≤ c ∧ c ≤ '9'))
  if ds.isEmpty then none
  else some (ds.foldl (fun acc c => acc * 10 + (c.toNat - 48)) 0)

/-- JavaScript `parseInt` restricted to base 10: skip leading whitespace,
optional sign, then the maximal digit prefix. -/
def parseIntJS (s : JStr) : Option Int :=
  match s.dropWhile isWS with
  | '-' :: rest => (parseDigits rest).map (fun n => -(n : Int))
  | '+' :: rest => (parseDigits rest).map (fun n => (n : Int))
  | t => (parseDigits t).map (fun n => (n : Int))

/-- The timeout field's write binder (source line 252):
`parseInt(e.target.value) * 1000` wrapped in the `localModelTimeout` patch.
Modelled from the spec: `updateSettings` merges the patch into the stored
snapshot.  `none` models the un-parsable (`NaN`) input. -/
def handleTimeoutChange (raw : JStr) (svc : AppSettings) : Option AppSettings :=
  (parseIntJS raw).map (fun n => { svc with localModelTimeout := n * 1000 })

/-- The timeout field's display binder (source line 251):
`settings.localModelTimeout / 1000`.  JavaScript number division coincides
with integer division on the exact multiples of 1000 relevant here. -/
def timeoutDisplay (ms : Int) : Int :=
  ms / 1000

/- Sample inputs used by concrete evaluations below. -/

/-- A deterministic sample id generator. -/
def sampleGen (k : Nat) : JStr :=
  (Nat.repr k).toList

/-- A sample config with a duplicated comma-separated name. -/
def sampleCommaDup : LocalModelConfig :=
  { id := "m0".toList, name := "a, a".toList, modelType := "ollama".toList,
    endpoint := "http://localhost:11434".toList, description := "d".toList,
    isEnabled := true }

/-- A sample config with two distinct comma-separated names. -/
def sampleTwo : LocalModelConfig :=
  { sampleCommaDup with name := "a, b".toList }

/-- A sample config whose name is empty. -/
def sampleEmptyName : LocalModelConfig :=
  { sampleCommaDup with name := [] }

/-- A sample config whose name is only commas and whitespace. -/
def sampleBlank : LocalModelConfig :=
  { sampleCommaDup with name := " , , ".toList }

/-- A sample config with the three-name form of the spec's example. -/
def sampleABC : LocalModelConfig :=
  { sampleCommaDup with name := "A, B , C".toList }

/-- A sample config with a plain single name. -/
def sampleSingle : LocalModelConfig :=
  { sampleCommaDup with name := "alpha".toList }

/-- A sample service state holding one stored config. -/
def svcSample : AppSettings :=
  { maxTokens := 4096, localModelTimeout := 30000, autoSave := true,
    theme := "light".toList, openRouterApiKey := [],
    localModels := [sampleSingle] }

/-- A sample UI state: form open, nothing staged, create mode. -/
def uiSample : UIState :=
  { settings := svcSample, showLocalModelForm := true, editingModel := none,
    importError := [], showBulkConfirm := false, modelsToCreate := [],
    successMessage := [] }

/-- A sample UI state in bulk-confirm-pending with the form still open. -/
def uiStaged : UIState :=
  { uiSample with showBulkConfirm := true, modelsToCreate := [sampleTwo] }

/-- A sample UI state in editing mode. -/
def uiEditing : UIState :=
  { uiSample with editingModel := some sampleSingle }

/-! ### Helper lemmas about the embedded string operations -/

/-- Trimming a string of whitespace characters yields the empty string. -/
theorem trim_of_all_ws {s : JStr} (h : ∀ c ∈ s, isWS c = true) : trim s = [] := by
  have h1 : s.dropWhile isWS = [] := List.dropWhile_eq_nil_iff.mpr h
  simp [trim, h1]

/-- The front of a trimmed string carries no removable whitespace. -/
theorem dropWhile_trim (s : JStr) : (trim s).dropWhile isWS = trim s := by
  rcases Nat.eq_zero_or_pos (trim s).length with h0 | hpos
  · have hnil : trim s = [] := List.length_eq_zero.mp h0
    simp [hnil]
  · rw [List.dropWhile_eq_self_iff]
    intro hl
    have hpre : trim s <+: s.dropWhile isWS := List.rdropWhile_prefix _ _
    have h0lt : 0 < (s.dropWhile isWS).length := lt_of_lt_of_le hl hpre.length_le
    have hget : (trim s).get ⟨0, hl⟩ = (s.dropWhile isWS).get ⟨0, h0lt⟩ := by
      simpa [List.get_eq_getElem] using hpre.getElem (n := 0) hl
    rw [hget]
    exact List.dropWhile_get_zero_not isWS s h0lt

/-- `trim` is idempotent. -/
theorem trim_idem (s : JStr) : trim (trim s) = trim s := by
  show List.rdropWhile isWS ((trim s).dropWhile isWS) = trim s
  rw [dropWhile_trim]
  show List.rdropWhile isWS (List.rdropWhile isWS (s.dropWhile isWS)) = trim s
  rw [List.rdropWhile_idempotent]
  rfl

/-- Splitting a comma-free string yields a single piece. -/
theorem splitOnCommaAux_no_comma :
    ∀ (s acc : JStr), ',' ∉ s → splitOnCommaAux s acc = [acc.reverse ++ s]
  | [], acc, _ => by simp [splitOnCommaAux]
  | c :: rest, acc, h => by
      have hc : ¬c = ',' := fun hc => h (by simp [hc])
      have hr : ',' ∉ rest := fun hr => h (List.mem_cons_of_mem _ hr)
      simp [splitOnCommaAux, hc, splitOnCommaAux_no_comma rest (c :: acc) hr]

/-- `s.split(',')` on a comma-free string is `[s]`. -/
theorem splitOnComma_no_comma {s : JStr} (h : ',' ∉ s) : splitOnComma s = [s] := by
  simpa [splitOnComma] using splitOnCommaAux_no_comma s [] h

/-- If the input consists of commas and whitespace only, every split piece is
whitespace only. -/
theorem splitOnCommaAux_all_ws :
    ∀ (s acc : JStr), (∀ c ∈ s, c = ',' ∨ isWS c = true) → (∀ c ∈ acc, isWS c = true) →
      ∀ p ∈ splitOnCommaAux s acc, ∀ c ∈ p, isWS c = true
  | [], acc, _, hacc => by
      intro p hp c hc
      simp only [splitOnCommaAux, List.mem_singleton] at hp
      subst hp
      exact hacc c (by simpa using hc)
  | d :: rest, acc, hs, hacc => by
      intro p hp c hc
      by_cases hd : d = ','
      · simp only [splitOnCommaAux, hd, if_pos, List.mem_cons] at hp
        rcases hp with rfl | hp
        · exact hacc c (by simpa using hc)
        · exact splitOnCommaAux_all_ws rest []
            (fun x hx => hs x (List.mem_cons_of_mem _ hx)) (by simp) p hp c hc
      · have hdws : isWS d = true := by
          rcases hs d (List.mem_cons_self _ _) with h | h
          · exact absurd h hd
          · exact h
        simp only [splitOnCommaAux, hd, if_neg, ite_false] at hp
        exact splitOnCommaAux_all_ws rest (d :: acc)
          (fun x hx => hs x (List.mem_cons_of_mem _ hx))
          (by
            intro x hx
            rcases List.mem_cons.mp hx with rfl | hx
            · exact hdws
            · exact hacc x hx) p hp c hc

/-- Every entry surviving the split-trim-filter pipeline is non-empty and
already trimmed. -/
theorem mem_parsedNames {s x : JStr} (hx : x ∈ parsedNames s) :
    0 < x.length ∧ trim x = x := by
  rw [parsedNames, List.mem_filter] at hx
  obtain ⟨hmem, hlen⟩ := hx
  refine ⟨by simpa using of_decide_eq_true hlen, ?_⟩
  rw [List.mem_map] at hmem
  obtain ⟨p, _, rfl⟩ := hmem
  exact trim_idem p

/-- A name made of commas and whitespace only parses to no entries. -/
theorem parsedNames_all_ws {s : JStr} (h : ∀ c ∈ s, c = ',' ∨ isWS c = true) :
    parsedNames s = [] := by
  rw [parsedNames, List.filter_eq_nil_iff]
  intro a ha
  rw [List.mem_map] at ha
  obtain ⟨p, hp, rfl⟩ := ha
  have hws : ∀ c ∈ p, isWS c = true := splitOnCommaAux_all_ws s [] h (by simp) p hp
  simp [trim_of_all_ws hws]

/-- Unfolding of the parser in the non-single case. -/
theorem parse_eq_mapWithIndex (genId : Nat → JStr) (model : LocalModelConfig)
    (h : (parsedNames model.name).length ≠ 1) :
    parseCommaSeparatedModelNames genId model =
      mapWithIndex (fun i n => { model with id := genId i, name := n }) 0
        (parsedNames model.name) := by
  unfold parseCommaSeparatedModelNames
  simp [h]

/-- Unfolding of the parser in the single-name case. -/
theorem parse_eq_single (genId : Nat → JStr) (model : LocalModelConfig)
    (h : (parsedNames model.name).length = 1) :
    parseCommaSeparatedModelNames genId model = [model] := by
  unfold parseCommaSeparatedModelNames
  simp [h]

/-- The names of the generated copies are exactly the parsed names. -/
theorem mapWithIndex_map_name (genId : Nat → JStr) (model : LocalModelConfig) :
    ∀ (ns : List JStr) (k : Nat),
      (mapWithIndex (fun i n => { model with id := genId i, name := n }) k ns).map
        (fun m => m.name) = ns
  | [], _ => rfl
  | n :: ns, k => by
      simp [mapWithIndex, mapWithIndex_map_name genId model ns (k + 1)]

/-- The ids of the generated copies are the generator applied to consecutive
indices. -/
theorem mapWithIndex_map_id (genId : Nat → JStr) (model : LocalModelConfig) :
    ∀ (ns : List JStr) (k : Nat),
      (mapWithIndex (fun i n => { model with id := genId i, name := n }) k ns).map
        (fun m => m.id) = (List.range' k ns.length).map genId
  | [], _ => rfl
  | n :: ns, k => by
      simp [mapWithIndex, List.range'_succ, mapWithIndex_map_id genId model ns (k + 1)]

/-! ### Claim theorems -/

/-- Claim C1, counterexample: for the submitted config whose name is
`"a, a"`, the parser returns two configs that share the name `"a"` —
duplicate names resulting from splitting are not discarded, contradicting
the claim that no two returned configs share a name. -/
theorem parse_duplicate_names_kept :
    (parseCommaSeparatedModelNames sampleGen sampleCommaDup).map (fun m => m.name) =
      [['a'], ['a']] := by
  decide

/-- Claim C1 (amended): when the submitted name splits into a number of
non-empty pieces other than one, every returned config has a non-empty,
whitespace-trimmed name and a freshly generated identifier (pairwise
distinct and distinct from the original, given a generator that is injective
on the used indices and avoids the original id), and the returned names are
exactly the parsed pieces — duplicates included, not discarded; when exactly
one non-empty name remains the original config is returned unchanged. -/
theorem parse_invariant_amended (genId : Nat → JStr) (model : LocalModelConfig)
    (hinj : ∀ i < (parsedNames model.name).length, ∀ j < (parsedNames model.name).length,
      genId i = genId j → i = j)
    (hfresh : ∀ i < (parsedNames model.name).length, genId i ≠ model.id) :
    ((parsedNames model.name).length = 1 →
       parseCommaSeparatedModelNames genId model = [model]) ∧
    ((parsedNames model.name).length ≠ 1 →
       (parseCommaSeparatedModelNames genId model).map (fun m => m.name) =
           parsedNames model.name ∧
       (∀ m ∈ parseCommaSeparatedModelNames genId model,
           0 < m.name.length ∧ trim m.name = m.name) ∧
       ((parseCommaSeparatedModelNames genId model).map (fun m => m.id)).Nodup ∧
       (∀ m ∈ parseCommaSeparatedModelNames genId model, m.id ≠ model.id)) := by
  constructor
  · intro h1
    exact parse_eq_single genId model h1
  · intro hne
    have hparse := parse_eq_mapWithIndex genId model hne
    refine ⟨?_, ?_, ?_, ?_⟩
    · rw [hparse, mapWithIndex_map_name]
    · intro m hm
      have hmn : m.name ∈ (parseCommaSeparatedModelNames genId model).map (fun m => m.name) :=
        List.mem_map_of_mem _ hm
      rw [hparse, mapWithIndex_map_name] at hmn
      exact mem_parsedNames hmn
    · rw [hparse, mapWithIndex_map_id]
      refine List.Nodup.map_on ?_ (List.nodup_range' _ _)
      intro x hx y hy hxy
      rw [List.mem_range'_1] at hx hy
      exact hinj x (by omega) y (by omega) hxy
    · intro m hm
      have hmi : m.id ∈ (parseCommaSeparatedModelNames genId model).map (fun m => m.id) :=
        List.mem_map_of_mem _ hm
      rw [hparse, mapWithIndex_map_id, List.mem_map] at hmi
      obtain ⟨i, hi, hid⟩ := hmi
      rw [List.mem_range'_1] at hi
      rw [← hid]
      exact hfresh i (by omega)

/-- Claim C1, witness for the amended theorem at the concrete name `"a, b"`
and a deterministic generator. -/
theorem parse_invariant_amended_witness :
    (parseCommaSeparatedModelNames sampleGen sampleTwo).map (fun m => m.name) =
        parsedNames sampleTwo.name ∧
    ((parseCommaSeparatedModelNames sampleGen sampleTwo).map (fun m => m.id)).Nodup :=
  have h := parse_invariant_amended sampleGen sampleTwo (by decide) (by decide)
  ⟨(h.2 (by decide)).1, (h.2 (by decide)).2.2.1⟩

/-- Claim C2, counterexample: confirming a staged bulk list does not clear
the staged list — after `handleConfirmBulkCreation` on a state staging one
config, `modelsToCreate` still holds that config (the claim says it is
cleared). -/
theorem confirm_keeps_staged_list :
    (handleConfirmBulkCreation svcSample uiStaged).2.1.modelsToCreate = [sampleTwo] := by
  decide

/-- Claim C2 (amended): confirming a staged bulk list of N configs makes
exactly one batch-add call with exactly those N configs (so exactly N new
records are persisted), closes the model form, hides the confirmation
dialog, and sets a success message mentioning N and all N names joined by
`", "`; the staged list itself is left unchanged rather than cleared. -/
theorem confirm_bulk_amended (svc : AppSettings) (ui : UIState) :
    (handleConfirmBulkCreation svc ui).2.2 =
      [ServiceCall.addLocalModels ui.modelsToCreate] ∧
    (handleConfirmBulkCreation svc ui).1.localModels =
      svc.localModels ++ ui.modelsToCreate ∧
    (handleConfirmBulkCreation svc ui).1.localModels.length =
      svc.localModels.length + ui.modelsToCreate.length ∧
    (handleConfirmBulkCreation svc ui).2.1.showLocalModelForm = false ∧
    (handleConfirmBulkCreation svc ui).2.1.showBulkConfirm = false ∧
    (handleConfirmBulkCreation svc ui).2.1.modelsToCreate = ui.modelsToCreate ∧
    (handleConfirmBulkCreation svc ui).2.1.settings = (handleConfirmBulkCreation svc ui).1 ∧
    (handleConfirmBulkCreation svc ui).2.1.successMessage =
      "Successfully created ".toList ++ (Nat.repr ui.modelsToCreate.length).toList ++
        " models: ".toList ++
        List.intercalate (", ".toList) (ui.modelsToCreate.map (fun m => m.name)) := by
  refine ⟨rfl, rfl, ?_, rfl, rfl, rfl, rfl, rfl⟩
  simp [handleConfirmBulkCreation, addLocalModelsSvc]

/-- Claim C3: evaluation of the save handler at the failing input — in
create mode with a name parsing to zero entries, the code still invokes the
single-add operation, passing the out-of-bounds element `modelsToSave[0]`
(JavaScript `undefined`, modelled as `none`). -/
theorem save_create_empty_parse_behavior :
    parseCommaSeparatedModelNames sampleGen sampleBlank = [] ∧
    uiSample.editingModel = none ∧
    (handleSaveLocalModel sampleGen sampleBlank svcSample uiSample).2.2 =
      [ServiceCall.addLocalModel none] := by
  decide

/-- Claim C4, counterexample: a config whose name is the empty string
contains no comma, yet the parser returns the empty list rather than the
single-element list holding the input. -/
theorem parse_empty_name_returns_nil :
    sampleEmptyName.name = [] ∧
    parseCommaSeparatedModelNames sampleGen sampleEmptyName = [] := by
  decide

/-- Claim C4 (amended): for every submitted config whose name contains no
comma and does not trim to the empty string, the parser returns exactly one
config equal to the input, identifier unchanged. -/
theorem parse_no_comma_amended (genId : Nat → JStr) (model : LocalModelConfig)
    (hnc : ',' ∉ model.name) (hne : trim model.name ≠ []) :
    parseCommaSeparatedModelNames genId model = [model] := by
  have hlen : 0 < (trim model.name).length := List.length_pos.mpr hne
  have hp : parsedNames model.name = [trim model.name] := by
    rw [parsedNames, splitOnComma_no_comma hnc]
    simp [hlen]
  exact parse_eq_single genId model (by rw [hp]; rfl)

/-- Claim C4, witness for the amended theorem at the comma-free name
`"alpha"`. -/
theorem parse_no_comma_amended_witness :
    parseCommaSeparatedModelNames sampleGen sampleSingle = [sampleSingle] :=
  parse_no_comma_amended sampleGen sampleSingle (by decide) (by decide)

/-- Claim C5: a submitted config named `"A, B , C"` yields exactly three
configs named `"A"`, `"B"`, `"C"`, each sharing every other field of the
source except the identifier, with pairwise distinct generated identifiers
none of which equals the original (given a generator with those
freshness properties on the three used indices). -/
theorem parse_three_names (genId : Nat → JStr) (model : LocalModelConfig)
    (hname : model.name = "A, B , C".toList)
    (h01 : genId 0 ≠ genId 1) (h02 : genId 0 ≠ genId 2) (h12 : genId 1 ≠ genId 2)
    (ho0 : genId 0 ≠ model.id) (ho1 : genId 1 ≠ model.id) (ho2 : genId 2 ≠ model.id) :
    parseCommaSeparatedModelNames genId model =
      [{ model with id := genId 0, name := "A".toList },
       { model with id := genId 1, name := "B".toList },
       { model with id := genId 2, name := "C".toList }] ∧
    ((parseCommaSeparatedModelNames genId model).map (fun m => m.id)).Nodup ∧
    ∀ m ∈ parseCommaSeparatedModelNames genId model, m.id ≠ model.id := by
  have hp : parsedNames model.name = ["A".toList, "B".toList, "C".toList] := by
    rw [hname]; decide
  have h1 : parseCommaSeparatedModelNames genId model =
      [{ model with id := genId 0, name := "A".toList },
       { model with id := genId 1, name := "B".toList },
       { model with id := genId 2, name := "C".toList }] := by
    rw [parse_eq_mapWithIndex genId model (by rw [hp]; decide), hp]
    simp [mapWithIndex]
  refine ⟨h1, ?_, ?_⟩
  · rw [h1]
    simp [List.nodup_cons, h01, h02, h12]
  · rw [h1]
    intro m hm
    simp only [List.mem_cons, List.not_mem_nil, or_false] at hm
    rcases hm with rfl | rfl | rfl
    · simpa using ho0
    · simpa using ho1
    · simpa using ho2

/-- Claim C5, witness at a fully concrete config and generator. -/
theorem parse_three_names_witness :
    parseCommaSeparatedModelNames sampleGen sampleABC =
      [{ sampleABC with id := sampleGen 0, name := "A".toList },
       { sampleABC with id := sampleGen 1, name := "B".toList },
       { sampleABC with id := sampleGen 2, name := "C".toList }] :=
  (parse_three_names sampleGen sampleABC (by decide) (by decide) (by decide) (by decide)
    (by decide) (by decide) (by decide)).1

/-- Claim C6, counterexample: canceling a staged bulk creation does not hide
the model form — on a state where the form is open (as it is whenever a bulk
list was just staged), it is still open after `handleCancelBulkCreation`,
contradicting the claim that the user must reopen the form to retry. -/
theorem cancel_leaves_form_open :
    uiStaged.showLocalModelForm = true ∧
    (handleCancelBulkCreation svcSample uiStaged).2.1.showLocalModelForm = true := by
  decide

/-- Claim C6 (amended): canceling a staged bulk creation makes no service
call (persisting zero new records and leaving the service state unchanged),
clears the staged list and hides the confirmation dialog; the model form's
visibility is left unchanged, so a form that was open when the list was
staged remains open. -/
theorem cancel_bulk_amended (svc : AppSettings) (ui : UIState) :
    (handleCancelBulkCreation svc ui).2.2 = [] ∧
    (handleCancelBulkCreation svc ui).1 = svc ∧
    (handleCancelBulkCreation svc ui).2.1.modelsToCreate = [] ∧
    (handleCancelBulkCreation svc ui).2.1.showBulkConfirm = false ∧
    (handleCancelBulkCreation svc ui).2.1.showLocalModelForm = ui.showLocalModelForm ∧
    (handleCancelBulkCreation svc ui).2.1.settings = ui.settings ∧
    (handleCancelBulkCreation svc ui).2.1.successMessage = ui.successMessage ∧
    (handleCancelBulkCreation svc ui).2.1.editingModel = ui.editingModel :=
  ⟨rfl, rfl, rfl, rfl, rfl, rfl, rfl, rfl⟩

/-- Claim C7: in editing mode the save handler makes exactly one
`updateLocalModel` call keyed by the submitted model's identifier, the
stored collection is rewritten in place by identifier (same length), and the
bulk path is never entered — the staged list and the confirmation-dialog
flag are untouched, whatever the comma content of the name. -/
theorem save_editing_updates_in_place (genId : Nat → JStr)
    (model e : LocalModelConfig) (svc : AppSettings) (ui : UIState)
    (he : ui.editingModel = some e) :
    (handleSaveLocalModel genId model svc ui).2.2 =
      [ServiceCall.updateLocalModel model.id model] ∧
    (handleSaveLocalModel genId model svc ui).1.localModels =
      svc.localModels.map (fun m => if m.id = model.id then model else m) ∧
    (handleSaveLocalModel genId model svc ui).1.localModels.length =
      svc.localModels.length ∧
    (handleSaveLocalModel genId model svc ui).2.1.showBulkConfirm = ui.showBulkConfirm ∧
    (handleSaveLocalModel genId model svc ui).2.1.modelsToCreate = ui.modelsToCreate ∧
    (handleSaveLocalModel genId model svc ui).2.1.showLocalModelForm = false ∧
    (handleSaveLocalModel genId model svc ui).2.1.editingModel = none := by
  simp [handleSaveLocalModel, he, updateLocalModelSvc]

/-- Claim C7, witness: editing `sampleSingle` while submitting a model whose
name contains a comma still produces a single in-place update call. -/
theorem save_editing_updates_in_place_witness :
    (handleSaveLocalModel sampleGen sampleTwo svcSample uiEditing).2.2 =
      [ServiceCall.updateLocalModel sampleTwo.id sampleTwo] :=
  (save_editing_updates_in_place sampleGen sampleTwo sampleSingle svcSample uiEditing
    rfl).1

/-- Claim C8: entering `30` in the timeout field stores `30000` milliseconds
(the binder multiplies the parsed seconds by 1000), and a stored value of
`45000` milliseconds is displayed as `45` (the binder divides by 1000). -/
theorem timeout_round_trip (svc : AppSettings) :
    handleTimeoutChange ("30".toList) svc =
      some { svc with localModelTimeout := 30000 } ∧
    timeoutDisplay 45000 = 45 := by
  constructor
  · simp only [handleTimeoutChange]
    rw [show parseIntJS ("30".toList) = some 30 from by decide]
    simp only [Option.map_some']
    norm_num
  · decide

/-- Claim C9: when the service's import operation fails, the import handler
leaves the held settings snapshot unchanged and sets the error message to
the fixed string; when it succeeds, the handler replaces the snapshot with
the refreshed state and clears the error message. -/
theorem import_result_handling (importOp : JStr → AppSettings → Option AppSettings)
    (content : JStr) (svc : AppSettings) (ui : UIState) :
    (importOp content svc = none →
       importAttempt importOp content svc ui =
         (svc, { ui with importError := "Invalid settings file format".toList })) ∧
    (∀ svc2, importOp content svc = some svc2 →
       importAttempt importOp content svc ui =
         (svc2, { ui with settings := svc2, importError := [] })) := by
  constructor
  · intro h
    simp [importAttempt, h]
  · intro svc2 h
    simp [importAttempt, h]

/-- Claim C9, witness: a concretely failing and a concretely
succeeding import operation. -/
theorem import_result_handling_witness :
    importAttempt (fun _ _ => none) [] svcSample uiSample =
      (svcSample, { uiSample with importError := "Invalid settings file format".toList }) ∧
    importAttempt (fun _ s => some s) [] svcSample uiSample =
      (svcSample, { uiSample with settings := svcSample, importError := [] }) :=
  ⟨(import_result_handling (fun _ _ => none) [] svcSample uiSample).1 rfl,
   (import_result_handling (fun _ s => some s) [] svcSample uiSample).2 svcSample rfl⟩

/-- Claim C10: a submitted config whose name consists only of commas and
whitespace parses to the empty list. -/
theorem parse_only_separators_empty (genId : Nat → JStr) (model : LocalModelConfig)
    (h : ∀ c ∈ model.name, c = ',' ∨ isWS c = true) :
    parseCommaSeparatedModelNames genId model = [] := by
  have hp : parsedNames model.name = [] := parsedNames_all_ws h
  rw [parse_eq_mapWithIndex genId model (by rw [hp]; decide), hp]
  rfl

/-- Claim C10, witness at the concrete name `" , , "`. -/
theorem parse_only_separators_empty_witness :
    parseCommaSeparatedModelNames sampleGen sampleBlank = [] :=
  parse_only_separators_empty sampleGen sampleBlank (by decide)
